import Mathlib

/-!
Verification of the request-admission layer of a NestJS boilerplate backend:
the body-size limiting middleware (`BodySizeLimitMiddleware`), the global
exception filter (`AllExceptionsFilter`), and the rate limiter configured in
`AppModule`.  Pure functions are embedded as Lean functions; the event-driven
middleware is embedded as a function over the ordered list of stream events a
request emits, producing the ordered list of externally visible actions the
middleware performs.
-/

namespace Admission

/-! ### Byte formatting (`BodySizeLimitMiddleware.formatBytes`)

Source:
```
private formatBytes(bytes: number): string {
  const sizes = ['Bytes', 'KB', 'MB', 'GB'];
  if (bytes === 0) return '0 Bytes';
  const i = Math.floor(Math.log(bytes) / Math.log(1024));
  return Math.round(bytes / Math.pow(1024, i)) + ' ' + sizes[i];
}
```
`Math.floor(Math.log b / Math.log 1024)` is the floor of the base-1024
logarithm, which on naturals is `Nat.log 1024`.  `Math.round x` rounds half
away from zero, which for a nonnegative rational `b / p` is
`⌊(2*b + p) / (2*p)⌋`.  `sizes[i]` for `i ≥ 4` is JavaScript `undefined`,
which string concatenation renders as the text "undefined".
-/

/-- JavaScript `Math.round (b / p)` for naturals `b`, positive `p`:
round-half-up of the exact rational quotient. -/
def jsRound (b p : Nat) : Nat := (2 * b + p) / (2 * p)

/-- JavaScript array indexing `sizes[i]`: out-of-range access yields
`undefined`, rendered as the string "undefined" by `+` concatenation. -/
def sizeUnit (i : Nat) : String :=
  (["Bytes", "KB", "MB", "GB"].get? i).getD "undefined"

/-- Embedding of `BodySizeLimitMiddleware.formatBytes`. -/
def formatBytes (bytes : Nat) : String :=
  if bytes = 0 then "0 Bytes"
  else
    let i := Nat.log 1024 bytes
    toString (jsRound bytes (1024 ^ i)) ++ " " ++ sizeUnit i

/-! ### Exceptions and the global filter (`AllExceptionsFilter`, part_005)

NestJS `HttpException`s carry a status code and a response payload that is
either a plain string or an object which may carry a `message` (a string or
an array of strings) and an `error` field.
-/

/-- Payload of the `message` field of an `HttpException` response object:
either a single string or an array of strings. -/
inductive ExcMessage where
  | one (s : String)
  | many (ls : List String)
  deriving DecidableEq, Repr

/-- Result of `HttpException.getResponse()`: a plain string or an object
with optional `message` and `error` fields. -/
inductive ExcResponse where
  | str (s : String)
  | obj (message : Option ExcMessage) (error : Option String)
  deriving DecidableEq, Repr

/-- An `HttpException`: HTTP status plus response payload. -/
structure HttpExc where
  status : Nat
  response : ExcResponse
  deriving DecidableEq, Repr

/-- Modelled from the spec: `PayloadTooLargeException` of `@nestjs/common`
(imported by part_007 but defined in the framework, outside src/) is an
`HttpException` with status 413 whose response object carries the
constructor message. -/
def PayloadTooLargeException (msg : String) : HttpExc :=
  ⟨413, .obj (some (.one msg)) (some "Payload Too Large")⟩

/-- An exception reaching the pipeline boundary: either an `HttpException`
or an unknown exception, whose internals (here: its stack trace) must not
leak into the response. -/
inductive Caught where
  | http (e : HttpExc)
  | other (stack : String)
  deriving DecidableEq, Repr

/-- The structured error body built by `AllExceptionsFilter.catch`. -/
structure ErrorBody where
  statusCode : Nat
  timestamp : String
  path : String
  method : String
  message : String
  error : Option String
  deriving DecidableEq, Repr

/-- Embedding of `AllExceptionsFilter.catch` (part_005): status selection,
response-payload selection, message extraction, and assembly of the
structured error body sent to the client. -/
def catchExc (exc : Caught) (path method timestamp : String) : ErrorBody :=
  let status := match exc with
    | .http e => e.status
    | .other _ => 500
  let excResp := match exc with
    | .http e => e.response
    | .other _ => ExcResponse.str "Internal server error"
  let message := match excResp with
    | .str s => s
    | .obj (some (.one s)) _ => s
    | .obj (some (.many ls)) _ => String.intercalate ", " ls
    | .obj none _ => "Internal server error"
  let err := match excResp with
    | .obj _ e => e
    | .str _ => none
  ⟨status, timestamp, path, method, message, err⟩

/-- Outcome of a request at the pipeline boundary: the business handler's
response, or a structured error body from the filter. -/
inductive PipelineResult where
  | ok (body : String)
  | err (e : ErrorBody)
  deriving DecidableEq, Repr

/-- Modelled from the spec: the NestJS pipeline wiring (framework code, not
under src/) — a guard rejection short-circuits the pipeline before the
business handler runs and its exception is translated by the globally bound
`AllExceptionsFilter`; absent a rejection the handler runs.  The first
component records whether the business handler was invoked. -/
def runPipeline (guardRejection : Option Caught) (handlerBody : String)
    (path method timestamp : String) : Bool × PipelineResult :=
  match guardRejection with
  | some e => (false, .err (catchExc e path method timestamp))
  | none => (true, .ok handlerBody)

/-! ### Body-size middleware (`BodySizeLimitMiddleware.use`, part_007)

The middleware registers listeners for the `data`, `end` and `error` events
of the request stream and, for GET/HEAD/DELETE, additionally calls `next()`
synchronously before any event fires.  We embed a request as its method plus
the ordered list of stream events, and the middleware as the ordered list of
externally visible actions it performs: calls to `next()`, calls to
`next(error)`, `req.pause()`, and thrown exceptions.  Once the limit is
exceeded the stream is paused and the exception thrown, so no later event is
processed.
-/

/-- An event emitted by the request stream: a data chunk (only its byte
length matters), the end of the stream, or a transport-level error. -/
inductive ReqEvent where
  | data (len : Nat)
  | endEv
  | errorEv (e : String)
  deriving DecidableEq, Repr

/-- An externally visible action of the middleware. -/
inductive MwAction where
  | nextCall
  | nextError (e : String)
  | pause
  | throwExc (e : HttpExc)
  deriving DecidableEq, Repr

/-- Default limit of `BodySizeLimitMiddleware`: 10 MiB. -/
def defaultLimit : Nat := 10 * 1024 * 1024

/-- JavaScript `this.maxSize || this.defaultLimit`: an absent or zero
(falsy) `maxSize` selects the default. -/
def effectiveLimit : Option Nat → Nat
  | some n => if n = 0 then defaultLimit else n
  | none => defaultLimit

/-- The message of the 413 exception thrown by the middleware. -/
def ptlMessage (limit : Nat) : String :=
  "Request body too large. Maximum size is " ++ formatBytes limit

/-- Event-driven part of `BodySizeLimitMiddleware.use`: process the stream
events in order, accumulating received bytes.  A chunk that pushes the
accumulator strictly above the limit causes `req.pause()` and a thrown
`PayloadTooLargeException`; the pause means no later event is processed.
The `end` event calls `next()`; an `error` event forwards the error object
to `next` verbatim. -/
def processEvents (limit acc : Nat) : List ReqEvent → List MwAction
  | [] => []
  | .data c :: rest =>
      if limit < acc + c then
        [.pause, .throwExc (PayloadTooLargeException (ptlMessage limit))]
      else processEvents limit (acc + c) rest
  | .endEv :: rest => .nextCall :: processEvents limit acc rest
  | .errorEv e :: rest => .nextError e :: processEvents limit acc rest

/-- Methods taking the fast path in `use`. -/
def isFastMethod (m : String) : Bool :=
  m = "GET" || m = "HEAD" || m = "DELETE"

/-- Embedding of `BodySizeLimitMiddleware.use`: listeners are registered
unconditionally; for GET/HEAD/DELETE `next()` is additionally called
synchronously, before any stream event fires. -/
def use (maxSize : Option Nat) (method : String) (events : List ReqEvent) :
    List MwAction :=
  (if isFastMethod method then [MwAction.nextCall] else []) ++
    processEvents (effectiveLimit maxSize) 0 events

/-! ### Rate limiter (ThrottlerGuard wired in part_008)

The AppModule (part_008) registers `ThrottlerGuard` globally with a single
throttler `{ ttl, limit }` read from `THROTTLE_TTL` / `THROTTLE_LIMIT`.  The
guard's algorithm itself lives in the `@nestjs/throttler` library, outside
src/, so it is modelled from the spec (§4.2, §3 WindowCounter).
-/

/-- Modelled from the spec: a WindowCounter — per-identity request count and
window start timestamp (milliseconds). -/
structure ThrottlerState where
  count : Nat
  windowStart : Nat
  deriving DecidableEq, Repr

/-- Admission decision of the rate limiter: admit, or reject with a
Retry-After hint in whole seconds. -/
inductive ThrottleDecision where
  | allow
  | reject (retryAfterSeconds : Nat)
  deriving DecidableEq, Repr

/-- Modelled from the spec: one increment-and-check step of the rate limiter
for one identity.  If `now - windowStart >= ttl` the counter resets to a
fresh window starting `now`; then the count is incremented; a count above
`limit` rejects with `retryAfterSeconds = ceil((windowStart + ttl - now) /
1000)`, otherwise the request is admitted. -/
def throttleStep (limit ttl : Nat) (s : ThrottlerState) (now : Nat) :
    ThrottleDecision × ThrottlerState :=
  let s0 := if ttl ≤ now - s.windowStart then ⟨0, now⟩ else s
  let c := s0.count + 1
  if limit < c then
    (.reject ((s0.windowStart + ttl - now + 999) / 1000), ⟨c, s0.windowStart⟩)
  else (.allow, ⟨c, s0.windowStart⟩)

/-- Modelled from the spec: process the request times of a single identity,
starting from an existing WindowCounter. -/
def throttleRunAux (limit ttl : Nat) (s : ThrottlerState) :
    List Nat → List ThrottleDecision
  | [] => []
  | t :: ts =>
      let r := throttleStep limit ttl s t
      r.1 :: throttleRunAux limit ttl r.2 ts

/-- Modelled from the spec: process the request times of a single identity
whose WindowCounter is created lazily on its first request (count 0, window
starting at that request's time). -/
def throttleRun (limit ttl : Nat) : List Nat → List ThrottleDecision
  | [] => []
  | t :: ts => throttleRunAux limit ttl ⟨0, t⟩ (t :: ts)

/-- Modelled from the spec: the in-memory mapping from ClientIdentity to its
WindowCounter, created lazily and never destroyed. -/
def Store : Type := String → Option ThrottlerState

/-- Modelled from the spec: one rate-limiter step against the shared store —
look up or lazily create the identity's WindowCounter, run the
increment-and-check step, and write back only that identity's entry. -/
def stepStore (limit ttl : Nat) (st : Store) (id : String) (now : Nat) :
    ThrottleDecision × Store :=
  let s0 : ThrottlerState := match st id with
    | none => ⟨0, now⟩
    | some s => s
  let r := throttleStep limit ttl s0 now
  (r.1, fun k => if k = id then some r.2 else st k)

/-- Modelled from the spec: process a trace of requests, each tagged with
its client identity and arrival time, against the shared store, recording
each identity's decision. -/
def runStore (limit ttl : Nat) (st : Store) :
    List (String × Nat) → List (String × ThrottleDecision)
  | [] => []
  | (i, t) :: rs =>
      let r := stepStore limit ttl st i t
      (i, r.1) :: runStore limit ttl r.2 rs

/-- Decisions of one identity within a decision trace. -/
def projDecisions (a : String) (l : List (String × ThrottleDecision)) :
    List ThrottleDecision :=
  l.filterMap (fun p => if p.1 = a then some p.2 else none)

/-! ### Helper lemmas about event processing -/

/-- Processing a run of data chunks whose total stays within the limit just
accumulates their lengths. -/
lemma processEvents_data_within (L : Nat) (cs : List Nat) :
    ∀ (acc : Nat) (es : List ReqEvent), acc + cs.sum ≤ L →
      processEvents L acc (cs.map ReqEvent.data ++ es) =
        processEvents L (acc + cs.sum) es := by
  induction cs with
  | nil => intro acc es _; simp
  | cons c cs ih =>
      intro acc es h
      rw [List.sum_cons] at h
      rw [List.map_cons, List.cons_append, processEvents,
        if_neg (by omega : ¬ L < acc + c), ih (acc + c) es (by omega),
        List.sum_cons]
      ring_nf

/-- Processing data chunks whose cumulative length first exceeds the limit
at index `k` pauses the stream and throws, whatever follows. -/
lemma processEvents_data_reject (L : Nat) (cs : List Nat) :
    ∀ (k acc : Nat) (es : List ReqEvent), k < cs.length →
      acc + (cs.take k).sum ≤ L → L < acc + (cs.take (k + 1)).sum →
      processEvents L acc (cs.map ReqEvent.data ++ es) =
        [.pause, .throwExc (PayloadTooLargeException (ptlMessage L))] := by
  induction cs with
  | nil => intro k acc es hk _ _; exact absurd hk (by simp)
  | cons c cs ih =>
      intro k acc es hk h1 h2
      cases k with
      | zero =>
          rw [List.take_succ_cons, List.take_zero, List.sum_cons,
            List.sum_nil] at h2
          rw [List.map_cons, List.cons_append, processEvents,
            if_pos (by omega : L < acc + c)]
      | succ k =>
          rw [List.take_succ_cons, List.sum_cons] at h1 h2
          rw [List.map_cons, List.cons_append, processEvents,
            if_neg (by omega : ¬ L < acc + c)]
          exact ih k (acc + c) es (by simpa using hk) (by omega) (by omega)

/-! ### Claim theorems: body-size middleware -/

/-- C1: with a configured limit L, a POST body of exactly L bytes is passed
to the next stage, while a single chunk of L+1 bytes is rejected by pausing
the stream and throwing a `PayloadTooLargeException`, whose HTTP status is
413; the comparison is strict. -/
theorem bodyLimit_boundary (L : Nat) (hL : 0 < L) :
    use (some L) "POST" [.data L, .endEv] = [MwAction.nextCall] ∧
    use (some L) "POST" [.data (L + 1)] =
      [.pause, .throwExc (PayloadTooLargeException (ptlMessage L))] ∧
    (PayloadTooLargeException (ptlMessage L)).status = 413 := by
  have hne : L ≠ 0 := hL.ne'
  refine ⟨?_, ?_, rfl⟩
  · simp [use, isFastMethod, effectiveLimit, hne, processEvents]
  · simp [use, isFastMethod, effectiveLimit, hne, processEvents]

theorem bodyLimit_boundary_witness :
    use (some 1024) "POST" [.data 1024, .endEv] = [MwAction.nextCall] :=
  (bodyLimit_boundary 1024 (by decide)).1

/-- C2: when the cumulative byte count of a chunk sequence first exceeds the
limit L at chunk index k, the middleware rejects exactly while processing
that chunk — pausing the stream and throwing the 413 exception with the
formatted-limit message — independently of any later events; processing
only the chunks before index k produces no action at all. -/
theorem bodyLimit_first_exceeding_chunk (L : Nat) (cs : List Nat) (k : Nat)
    (rest : List ReqEvent) (hk : k < cs.length)
    (hpre : (cs.take k).sum ≤ L) (hex : L < (cs.take (k + 1)).sum) :
    processEvents L 0 (cs.map ReqEvent.data ++ rest) =
      [.pause, .throwExc (PayloadTooLargeException (ptlMessage L))] ∧
    processEvents L 0 ((cs.take (k + 1)).map ReqEvent.data) =
      [.pause, .throwExc (PayloadTooLargeException (ptlMessage L))] ∧
    processEvents L 0 ((cs.take k).map ReqEvent.data) = [] := by
  refine ⟨processEvents_data_reject L cs k 0 rest hk (by omega) (by omega),
    ?_, ?_⟩
  · have h := processEvents_data_reject L (cs.take (k + 1)) k 0 []
      (by simpa using hk)
      (by rw [List.take_take, min_eq_left (by omega)]; omega)
      (by rw [List.take_take, min_self]; omega)
    simpa using h
  · have h := processEvents_data_within L (cs.take k) 0 []
      (by simpa using hpre)
    simpa [processEvents] using h

theorem bodyLimit_first_exceeding_chunk_witness :
    processEvents 5 0 ([3, 3].map ReqEvent.data ++ [ReqEvent.data 100]) =
      [.pause, .throwExc (PayloadTooLargeException (ptlMessage 5))] ∧
    processEvents 5 0 ((([3, 3] : List Nat).take 2).map ReqEvent.data) =
      [.pause, .throwExc (PayloadTooLargeException (ptlMessage 5))] ∧
    processEvents 5 0 ((([3, 3] : List Nat).take 1).map ReqEvent.data) = [] :=
  bodyLimit_first_exceeding_chunk 5 [3, 3] 1 [ReqEvent.data 100]
    (by decide) (by decide) (by decide)

/-- C4 counterexample: on a GET request the middleware does observe body
bytes — a single oversized chunk makes it pause and throw, so its actions
are not merely the immediate `next()` call the claim asserts. -/
theorem bodyLimit_fast_path_observes_body :
    use (some 5) "GET" [.data 6] ≠ [MwAction.nextCall] := by
  simp [use, isFastMethod, effectiveLimit, processEvents]

/-- C4 amended: for GET, HEAD and DELETE the middleware calls `next()`
immediately, before any body event; but the byte-counting listeners are
still attached, so stream events are still processed afterwards, and only
a request emitting no events produces exactly the one `next()` call. -/
theorem bodyLimit_fast_path_amended (maxSize : Option Nat) (m : String)
    (hm : isFastMethod m = true) (events : List ReqEvent) :
    use maxSize m events =
      MwAction.nextCall :: processEvents (effectiveLimit maxSize) 0 events ∧
    use maxSize m [] = [MwAction.nextCall] := by
  simp [use, hm, processEvents]

theorem bodyLimit_fast_path_amended_witness :
    use none "GET" [ReqEvent.endEv] =
      MwAction.nextCall ::
        processEvents (effectiveLimit none) 0 [ReqEvent.endEv] ∧
    use none "GET" [] = [MwAction.nextCall] :=
  bodyLimit_fast_path_amended none "GET" (by decide) [ReqEvent.endEv]

/-- C7: a transport-level error event makes the middleware forward the very
same error object to the next stage's error channel, never converting it to
a `PayloadTooLarge` condition, however many bytes were accumulated before
it within the limit. -/
theorem bodyLimit_error_forwarded (L acc : Nat) (e : String)
    (rest : List ReqEvent) :
    processEvents L acc (.errorEv e :: rest) =
      .nextError e :: processEvents L acc rest ∧
    ∀ cs : List Nat, cs.sum ≤ L →
      processEvents L 0 (cs.map ReqEvent.data ++ .errorEv e :: rest) =
        .nextError e :: processEvents L cs.sum rest := by
  refine ⟨rfl, fun cs h => ?_⟩
  rw [processEvents_data_within L cs 0 (.errorEv e :: rest) (by omega)]
  simp [processEvents]

theorem bodyLimit_error_forwarded_witness :
    processEvents 10 0 ([2, 3].map ReqEvent.data ++
        ReqEvent.errorEv "ECONNRESET" :: []) =
      .nextError "ECONNRESET" ::
        processEvents 10 ([2, 3] : List Nat).sum [] :=
  (bodyLimit_error_forwarded 10 7 "ECONNRESET" []).2 [2, 3] (by decide)

/-- C9: for a fast-path method the middleware both calls `next()`
synchronously and leaves the `end` listener registered, so a later `end`
event invokes `next()` a second time for the same request. -/
theorem bodyLimit_fast_path_double_next (maxSize : Option Nat) (m : String)
    (hm : isFastMethod m = true) :
    use maxSize m [.endEv] = [MwAction.nextCall, MwAction.nextCall] := by
  simp [use, hm, processEvents]

theorem bodyLimit_fast_path_double_next_witness :
    use none "GET" [.endEv] = [MwAction.nextCall, MwAction.nextCall] :=
  bodyLimit_fast_path_double_next none "GET" (by decide)

/-! ### Claim theorems: exception filter and pipeline -/

/-- C5: a guard rejection short-circuits the pipeline — the business
handler is not invoked — and the client receives the filter's structured
body carrying statusCode, timestamp, path, method and message; an
`HttpException` keeps its own status, any unknown exception yields status
500 with the fixed message "Internal server error" and a body that is
independent of the exception's stack trace. -/
theorem pipeline_error_contract :
    (∀ (e : Caught) (h p m ts : String),
        runPipeline (some e) h p m ts =
          (false, .err (catchExc e p m ts))) ∧
    (∀ (h p m ts : String), runPipeline none h p m ts = (true, .ok h)) ∧
    (∀ (e : HttpExc) (p m ts : String),
        (catchExc (.http e) p m ts).statusCode = e.status) ∧
    (∀ (stack p m ts : String),
        catchExc (.other stack) p m ts =
          ⟨500, ts, p, m, "Internal server error", none⟩) ∧
    (∀ (exc : Caught) (p m ts : String),
        (catchExc exc p m ts).timestamp = ts ∧
          (catchExc exc p m ts).path = p ∧
          (catchExc exc p m ts).method = m) := by
  refine ⟨fun e h p m ts => rfl, fun h p m ts => rfl,
    fun e p m ts => rfl, fun stack p m ts => rfl,
    fun exc p m ts => ?_⟩
  cases exc <;> exact ⟨rfl, rfl, rfl⟩

/-! ### Claim theorems: byte formatting -/

/-- C6: `formatBytes` maps 0 to "0 Bytes", 1024 to "1 KB" and 10 MiB to
"10 MB", and in general a nonzero byte count is rendered as the half-up
rounding of `bytes / 1024 ^ i` followed by the unit at index
`i = ⌊log₁₀₂₄ bytes⌋`, the largest power of 1024 not exceeding the
count. -/
theorem formatBytes_spec :
    formatBytes 0 = "0 Bytes" ∧ formatBytes 1024 = "1 KB" ∧
    formatBytes (10 * 1024 * 1024) = "10 MB" ∧
    ∀ b : Nat, 0 < b →
      1024 ^ Nat.log 1024 b ≤ b ∧ b < 1024 ^ (Nat.log 1024 b + 1) ∧
      formatBytes b =
        toString (jsRound b (1024 ^ Nat.log 1024 b)) ++ " " ++
          sizeUnit (Nat.log 1024 b) := by
  refine ⟨rfl, ?_, ?_, fun b hb => ?_⟩
  · have h : Nat.log 1024 1024 = 1 := by
      rw [Nat.log_eq_of_pow_le_of_lt_pow] <;> norm_num
    rw [formatBytes, if_neg (by norm_num), h]
    norm_num [jsRound, sizeUnit]
    rfl
  · have h : Nat.log 1024 (10 * 1024 * 1024) = 2 := by
      rw [Nat.log_eq_of_pow_le_of_lt_pow] <;> norm_num
    rw [formatBytes, if_neg (by norm_num), h]
    norm_num [jsRound, sizeUnit]
    rfl
  · exact ⟨Nat.pow_log_le_self 1024 hb.ne',
      Nat.lt_pow_succ_log_self (by norm_num) b,
      by rw [formatBytes, if_neg hb.ne']⟩

theorem formatBytes_spec_witness :
    0 < 5 ∧
      (1024 ^ Nat.log 1024 5 ≤ 5 ∧ 5 < 1024 ^ (Nat.log 1024 5 + 1) ∧
        formatBytes 5 =
          toString (jsRound 5 (1024 ^ Nat.log 1024 5)) ++ " " ++
            sizeUnit (Nat.log 1024 5)) :=
  ⟨by decide, formatBytes_spec.2.2.2 5 (by decide)⟩

/-- C10: for any byte count of at least 1024⁴ the computed unit index is at
least 4, outside the four-element unit array, so the rendered unit is the
out-of-range lookup result "undefined"; below 1024⁴ the index stays in
range and the unit is one of the four named units. -/
theorem formatBytes_unit_out_of_range :
    (∀ b : Nat, 1024 ^ 4 ≤ b →
        4 ≤ Nat.log 1024 b ∧ sizeUnit (Nat.log 1024 b) = "undefined" ∧
        formatBytes b =
          toString (jsRound b (1024 ^ Nat.log 1024 b)) ++ " " ++
            "undefined") ∧
    (∀ b : Nat, 0 < b → b < 1024 ^ 4 →
        Nat.log 1024 b < 4 ∧
        sizeUnit (Nat.log 1024 b) ∈
          (["Bytes", "KB", "MB", "GB"] : List String)) := by
  constructor
  · intro b hb
    have hb0 : b ≠ 0 := by positivity
    have h4 : 4 ≤ Nat.log 1024 b :=
      (Nat.pow_le_iff_le_log (by norm_num) hb0).mp hb
    have hu : sizeUnit (Nat.log 1024 b) = "undefined" := by
      rw [sizeUnit, List.get?_eq_none.mpr (by simpa using h4)]
      rfl
    refine ⟨h4, hu, ?_⟩
    rw [formatBytes, if_neg hb0]
    show toString (jsRound b (1024 ^ Nat.log 1024 b)) ++ " " ++
        sizeUnit (Nat.log 1024 b) = _
    rw [hu]
  · intro b hb hlt
    have h4 : Nat.log 1024 b < 4 := Nat.log_lt_of_lt_pow hb.ne' hlt
    refine ⟨h4, ?_⟩
    interval_cases h : Nat.log 1024 b <;> simp [sizeUnit]

theorem formatBytes_unit_out_of_range_witness :
    (4 ≤ Nat.log 1024 (1024 ^ 4) ∧
      sizeUnit (Nat.log 1024 (1024 ^ 4)) = "undefined" ∧
      formatBytes (1024 ^ 4) =
        toString (jsRound (1024 ^ 4) (1024 ^ Nat.log 1024 (1024 ^ 4))) ++
          " " ++ "undefined") ∧
    (Nat.log 1024 3 < 4 ∧
      sizeUnit (Nat.log 1024 3) ∈
        (["Bytes", "KB", "MB", "GB"] : List String)) :=
  ⟨formatBytes_unit_out_of_range.1 (1024 ^ 4) (le_refl _),
    formatBytes_unit_out_of_range.2 3 (by decide) (by norm_num)⟩

/-! ### Helper lemmas about the rate limiter -/

/-- The empty WindowCounter store: no identity seen yet. -/
def emptyStore : Store := fun _ => none

/-- Within the current window, a request that keeps the count at or below
the limit is admitted and only increments the counter. -/
lemma throttleStep_in_window (N T c t0 t : Nat) (h1 : t0 ≤ t)
    (h2 : t < t0 + T) (hc : c + 1 ≤ N) :
    throttleStep N T ⟨c, t0⟩ t = (.allow, ⟨c + 1, t0⟩) := by
  have h3 : ¬ T ≤ t - t0 := by omega
  have h4 : ¬ N < c + 1 := by omega
  simp [throttleStep, h3, h4]

/-- Within the current window, a request arriving with the counter already
at the limit is rejected with the ceiling of the remaining window time in
seconds. -/
lemma throttleStep_at_limit (N T t0 t : Nat) (h1 : t0 ≤ t)
    (h2 : t < t0 + T) :
    throttleStep N T ⟨N, t0⟩ t =
      (.reject ((t0 + T - t + 999) / 1000), ⟨N + 1, t0⟩) := by
  have h3 : ¬ T ≤ t - t0 := by omega
  have h4 : N < N + 1 := by omega
  simp [throttleStep, h3, h4]

/-- A run of in-window requests that never pushes the counter above the
limit is admitted wholesale, leaving the counter increased by the number of
requests. -/
lemma throttleRunAux_window (N T t0 : Nat) :
    ∀ (ts : List Nat) (c : Nat) (rest : List Nat),
      (∀ t ∈ ts, t0 ≤ t ∧ t < t0 + T) → c + ts.length ≤ N →
      throttleRunAux N T ⟨c, t0⟩ (ts ++ rest) =
        List.replicate ts.length ThrottleDecision.allow ++
          throttleRunAux N T ⟨c + ts.length, t0⟩ rest := by
  intro ts
  induction ts with
  | nil => intro c rest _ _; simp
  | cons t ts ih =>
      intro c rest hmem hc
      have ht := hmem t (List.mem_cons_self t ts)
      have hlen : c + (t :: ts).length = c + 1 + ts.length := by
        simp; omega
      rw [List.cons_append, throttleRunAux,
        throttleStep_in_window N T c t0 t ht.1 ht.2
          (by simp at hc; omega)]
      rw [ih (c + 1) rest (fun x hx => hmem x (List.mem_cons_of_mem _ hx))
        (by simp at hc ⊢; omega), hlen]
      simp [List.replicate_succ]

/-! ### Claim theorems: rate limiter -/

/-- C3: with limit N and window length T, the first N requests of an
identity inside one window are all admitted; the request after them, still
inside the window, is rejected with Retry-After equal to
ceil((windowStart + ttl - now) / 1000), which is positive, at most
⌈T/1000⌉, and at most T/1000 whenever T is a whole number of seconds; and
any request arriving at least T milliseconds after the window start is
admitted again with the counter reset to a fresh window. -/
theorem throttler_window (N T t0 : Nat) (ts : List Nat) (tr : Nat)
    (hN : 0 < N) (_hT : 0 < T)
    (hts : ∀ t ∈ ts, t0 ≤ t ∧ t < t0 + T)
    (htr1 : t0 ≤ tr) (htr2 : tr < t0 + T) :
    (ts.length + 1 ≤ N →
      throttleRun N T (t0 :: ts) =
        List.replicate (ts.length + 1) ThrottleDecision.allow) ∧
    (ts.length + 1 = N →
      throttleRun N T (t0 :: ts ++ [tr]) =
        List.replicate N ThrottleDecision.allow ++
          [ThrottleDecision.reject ((t0 + T - tr + 999) / 1000)] ∧
      0 < (t0 + T - tr + 999) / 1000 ∧
      (t0 + T - tr + 999) / 1000 ≤ (T + 999) / 1000 ∧
      (1000 ∣ T → (t0 + T - tr + 999) / 1000 ≤ T / 1000)) ∧
    (∀ (s : ThrottlerState) (t2 : Nat), s.windowStart + T ≤ t2 →
      throttleStep N T s t2 = (ThrottleDecision.allow, ⟨1, t2⟩)) := by
  have hmem : ∀ t ∈ t0 :: ts, t0 ≤ t ∧ t < t0 + T := by
    intro t htm
    rcases List.mem_cons.mp htm with h | h
    · exact ⟨le_of_eq h.symm, by omega⟩
    · exact hts t h
  refine ⟨fun hle => ?_, fun heq => ?_, fun s t2 h => ?_⟩
  · have h := throttleRunAux_window N T t0 (t0 :: ts) 0 [] hmem
      (by simpa using hle)
    rw [List.append_nil] at h
    rw [throttleRun, h]
    simp [throttleRunAux]
  · have h := throttleRunAux_window N T t0 (t0 :: ts) 0 [tr] hmem
      (by simp; omega)
    simp only [List.cons_append, List.length_cons, Nat.zero_add] at h
    have hstep : throttleRunAux N T ⟨ts.length + 1, t0⟩ [tr] =
        [ThrottleDecision.reject ((t0 + T - tr + 999) / 1000)] := by
      rw [heq, throttleRunAux, throttleStep_at_limit N T t0 tr htr1 htr2]
      rfl
    refine ⟨?_, by omega, by omega, fun hd => by omega⟩
    rw [List.cons_append, throttleRun, h, hstep, heq]
  · have h3 : T ≤ t2 - s.windowStart := by omega
    have h4 : ¬ N < 0 + 1 := by omega
    simp [throttleStep, h3, h4]

theorem throttler_window_witness :
    throttleRun 2 60000 (0 :: [100]) =
      List.replicate 2 ThrottleDecision.allow ∧
    throttleStep 2 60000 ⟨2, 0⟩ 60000 = (ThrottleDecision.allow, ⟨1, 60000⟩) :=
  ⟨(throttler_window 2 60000 0 [100] 200 (by decide) (by decide)
      (by decide) (by decide) (by decide)).1 (by decide),
    (throttler_window 2 60000 0 [100] 200 (by decide) (by decide)
      (by decide) (by decide) (by decide)).2.2 ⟨2, 0⟩ 60000 (by decide)⟩

/-- The decisions of identity `a` in a trace starting with one of its own
requests. -/
lemma projDecisions_cons_self (a : String) (d : ThrottleDecision)
    (l : List (String × ThrottleDecision)) :
    projDecisions a ((a, d) :: l) = d :: projDecisions a l := by
  simp [projDecisions]

/-- The decisions of identity `a` are unaffected by a leading request of a
different identity. -/
lemma projDecisions_cons_ne (a i : String) (h : i ≠ a)
    (d : ThrottleDecision) (l : List (String × ThrottleDecision)) :
    projDecisions a ((i, d) :: l) = projDecisions a l := by
  simp [projDecisions, h]

/-- Requests by one identity reach only that identity's store entry, and
the decisions an identity receives depend only on its own subsequence of
the request trace. -/
lemma runStore_filter (N T : Nat) (a : String) :
    ∀ (rs : List (String × Nat)) (st st' : Store), st a = st' a →
      projDecisions a (runStore N T st rs) =
        projDecisions a
          (runStore N T st' (rs.filter (fun p => p.1 == a))) := by
  intro rs
  induction rs with
  | nil => intro st st' _; rfl
  | cons r rs ih =>
      obtain ⟨i, t⟩ := r
      intro st st' hag
      by_cases hi : i = a
      · subst hi
        have hd : (stepStore N T st i t).1 = (stepStore N T st' i t).1 := by
          simp [stepStore, hag]
        have hs : (stepStore N T st i t).2 i =
            (stepStore N T st' i t).2 i := by
          simp [stepStore, hag]
        rw [List.filter_cons_of_pos (by simp), runStore, runStore,
          projDecisions_cons_self, projDecisions_cons_self, hd,
          ih _ _ hs]
      · have hane : ¬ a = i := fun h => hi h.symm
        have hs : (stepStore N T st i t).2 a = st' a := by
          simp [stepStore, hane, hag]
        rw [List.filter_cons_of_neg (by simp [hi]), runStore,
          projDecisions_cons_ne a i hi, ih _ _ hs]

/-- C8: rate-limiter noninterference across identities — the decisions one
identity receives are exactly those it would receive if all other
identities' requests were absent, and a request by one identity leaves
every other identity's WindowCounter untouched. -/
theorem throttler_noninterference (N T : Nat) (st : Store)
    (rs : List (String × Nat)) (a : String) :
    projDecisions a (runStore N T st rs) =
      projDecisions a (runStore N T st (rs.filter (fun p => p.1 == a))) ∧
    ∀ (i : String) (t : Nat) (b : String), b ≠ i →
      (stepStore N T st i t).2 b = st b := by
  refine ⟨runStore_filter N T a rs st st rfl, fun i t b hb => ?_⟩
  simp [stepStore, hb]

theorem throttler_noninterference_witness :
    (stepStore 3 60000 emptyStore "10.0.0.1" 0).2 "10.0.0.2" =
      emptyStore "10.0.0.2" :=
  (throttler_noninterference 3 60000 emptyStore [] "10.0.0.2").2
    "10.0.0.1" 0 "10.0.0.2" (by decide)

end Admission
